import Mathlib

/-!
Formal model of the VisionTale video generation service:
`server/services/video_service.py` and `server/utils/image_effect.py`.

Modelling conventions:

* Python floats are modelled by exact rationals (`ℚ`), except for the
  cosine-based pan easing which needs `ℝ`.
* Python `int(x)` truncates toward zero (`pyInt`, `pyIntReal`);
  Python `//` is floor division (`Int.fdiv`).
* An exception raised by the Python code is a `PyErr` value; fallible
  functions return `Except PyErr α`.
* The shared `threading.Event` stop flag is modelled by oracles giving the
  value the flag is observed to have at each checkpoint: `segStop s i` is
  the value segment `s` sees at its `i`-th per-frame check
  (`video_service.py` line 118), and `batchStop b` the value seen at the
  end-of-batch check (line 237).
* `PIL` images are modelled by their pixel dimensions (plus, for the fade
  effect, the accumulated global brightness scale); `Image.resize` and
  `Image.crop` act on dimensions and crop boxes.
-/

namespace VisionTale

/-- Python `int()` applied to a rational number: truncation toward zero. -/
def pyInt (x : ℚ) : ℤ := if 0 ≤ x then ⌊x⌋ else ⌈x⌉

/-- Python `int()` applied to a real number: truncation toward zero. -/
noncomputable def pyIntReal (x : ℝ) : ℤ := if 0 ≤ x then ⌊x⌋ else ⌈x⌉

/-- Exceptions raised by the video service, as Python exception class plus
message. `calledProcessError` stands for `subprocess.CalledProcessError`. -/
inductive PyErr where
  | fileNotFound (msg : String)
  | valueError (msg : String)
  | calledProcessError (msg : String)
  deriving DecidableEq

/-- Message of the cancellation `ValueError` (video_service.py line 240). -/
def cancelledMsg : String := "Video generation cancelled by user"

/-- Message of the all-or-nothing failure `ValueError` (lines 243-245). -/
def someFailedMsg : String := "Some video segments failed to generate, cannot merge. Check logs."

/-- Message raised when no numeric segment subdirectories exist (line 206). -/
def noSegmentsMsg : String := "No valid video segments"

/-- Message raised at line 249 when the merge input list is empty. -/
def noneGeneratedMsg : String := "No valid video segments generated"

/-- Message of the zero-frame `ValueError` (lines 112-114). -/
def zeroFramesMsg (subdir : String) : String :=
  "Calculated total frames is 0, video duration too short. Subdir: " ++ subdir

/-! ## Image effects (`server/utils/image_effect.py`) -/

/-- Image model for the fade effect: pixel size plus the accumulated global
brightness scale applied so far (1 for an untouched image). -/
structure Img where
  width : ℕ
  height : ℕ
  brightness : ℚ
  deriving DecidableEq

/-- `PIL.ImageEnhance.Brightness(image).enhance(b)`: scales the global image
brightness by the factor `b` (image_effect.py lines 30-31). -/
def enhanceBrightness (image : Img) (b : ℚ) : Img :=
  { image with brightness := image.brightness * b }

/-- Brightness multiplier computed by `ImageEffects.fade_effect` at
image_effect.py lines 19-26, for a positive `fade_duration`: the in-ramp
branch is tested first, then the out-ramp branch, else 1. -/
def fadeBrightness (fade_duration time_val duration : ℚ) : ℚ :=
  if time_val < fade_duration then time_val / fade_duration
  else if duration - time_val < fade_duration then (duration - time_val) / fade_duration
  else 1

/-- `ImageEffects.fade_effect` (image_effect.py lines 11-33): returns the
image unchanged when `fade_duration ≤ 0`, otherwise applies the brightness
multiplier through `ImageEnhance.Brightness` whenever it is below 1. -/
def fade_effect (image : Img) (time_val duration fade_duration : ℚ) : Img :=
  if fade_duration ≤ 0 then image
  else
    let brightness := fadeBrightness fade_duration time_val duration
    if brightness < 1 then enhanceBrightness image brightness else image

/-- `ImageEffects._ease_in_out_progress` (image_effect.py lines 112-115). -/
noncomputable def ease_in_out_progress (progress : ℝ) : ℝ :=
  0.5 * (1 - Real.cos (Real.pi * progress))

/-- Result of a pan/crop computation: the size of the scaled (resized) image
and the crop box handed to `PIL.Image.crop` as (left, top, right, bottom).
The produced image has size (right - left) x (bottom - top). -/
structure CropSpec where
  scaledW : ℤ
  scaledH : ℤ
  left : ℤ
  top : ℤ
  right : ℤ
  bottom : ℤ
  deriving DecidableEq

/-- The no-pan branch of `ImageEffects.pan_effect` (image_effect.py lines
54-71): scale to cover the output, then crop centred on the long axis. -/
def center_crop (img_w img_h out_w out_h : ℕ) : CropSpec :=
  let img_aspect : ℚ := (img_w : ℚ) / (img_h : ℚ)
  let out_aspect : ℚ := (out_w : ℚ) / (out_h : ℚ)
  if out_aspect < img_aspect then
    let new_height : ℤ := (out_h : ℤ)
    let new_width : ℤ := pyInt ((new_height : ℚ) * img_aspect)
    let left : ℤ := (new_width - (out_w : ℤ)).fdiv 2
    ⟨new_width, new_height, left, 0, left + (out_w : ℤ), (out_h : ℤ)⟩
  else
    let new_width : ℤ := (out_w : ℤ)
    let new_height : ℤ := pyInt ((new_width : ℚ) / img_aspect)
    let top : ℤ := (new_height - (out_h : ℤ)).fdiv 2
    ⟨new_width, new_height, 0, top, (out_w : ℤ), top + (out_h : ℤ)⟩

/-- Pan axis selection, `use_horizontal` (image_effect.py lines 46-51). -/
def use_horizontal (h_range v_range : ℚ) (segment_index : ℕ) : Bool :=
  if 0 < h_range ∧ 0 < v_range then segment_index % 2 == 0
  else if 0 < v_range then false
  else true

/-- Scale ratio of the moving pan (image_effect.py lines 73-86). -/
def scale_ratio (img_w img_h out_w out_h : ℕ) (h_range v_range : ℚ) (horizontal : Bool) : ℚ :=
  if horizontal then
    let required_width : ℚ := (out_w : ℚ) * (1 + h_range)
    max (required_width / (img_w : ℚ)) ((out_h : ℚ) / (img_h : ℚ))
  else
    let required_height : ℚ := (out_h : ℚ) * (1 + v_range)
    max ((out_w : ℚ) / (img_w : ℚ)) (required_height / (img_h : ℚ))

/-- Size of the resized image (image_effect.py lines 88-91):
`int(img_w * scale_ratio)` by `int(img_h * scale_ratio)`. -/
def scaled_size (img_w img_h : ℕ) (ratio : ℚ) : ℤ × ℤ :=
  (pyInt ((img_w : ℚ) * ratio), pyInt ((img_h : ℚ) * ratio))

/-- Crop-window offsets of the moving pan (image_effect.py lines 93-104):
the pan axis slides by the eased progress, the other axis is centred with
floor division by 2. -/
noncomputable def pan_offsets (scaled_w scaled_h : ℤ) (out_w out_h : ℕ) (horizontal : Bool)
    (time_val duration : ℝ) : ℤ × ℤ :=
  let progress := ease_in_out_progress (time_val / duration)
  if horizontal then
    (pyIntReal (((scaled_w - (out_w : ℤ) : ℤ) : ℝ) * progress), (scaled_h - (out_h : ℤ)).fdiv 2)
  else
    ((scaled_w - (out_w : ℤ)).fdiv 2, pyIntReal (((scaled_h - (out_h : ℤ) : ℤ) : ℝ) * progress))

/-- `ImageEffects.pan_effect` (image_effect.py lines 36-109), acting on the
image dimensions: either the centred crop (both pan ranges ≤ 0) or the
moving pan assembled from axis choice, scale ratio, resize and offsets. -/
noncomputable def pan_effect (img_w img_h out_w out_h : ℕ) (h_range v_range : ℚ)
    (segment_index : ℕ) (time_val duration : ℝ) : CropSpec :=
  if h_range ≤ 0 ∧ v_range ≤ 0 then center_crop img_w img_h out_w out_h
  else
    let horizontal := use_horizontal h_range v_range segment_index
    let ratio := scale_ratio img_w img_h out_w out_h h_range v_range horizontal
    let s := scaled_size img_w img_h ratio
    let o := pan_offsets s.1 s.2 out_w out_h horizontal time_val duration
    ⟨s.1, s.2, o.1, o.2, o.1 + (out_w : ℤ), o.2 + (out_h : ℤ)⟩

/-! ## Video service (`server/services/video_service.py`) -/

/-- The temp clip file name built at video_service.py line 91 (the constant
`temp_dir` prefix omitted): `vid_` + subdir + `_` + pid + `.mp4`. The name
does not mention `time.time_ns()`. -/
def tempVideoName (subdir : String) (pid : ℕ) : String :=
  "vid_" ++ subdir ++ "_" ++ Nat.repr pid ++ ".mp4"

/-- The intermediate audio file name built at lines 92-95:
`temp_audio_` + subdir + `_` + pid + `_` + time_ns + `.m4a`. -/
def tempAudioName (subdir : String) (pid timeNs : ℕ) : String :=
  "temp_audio_" ++ subdir ++ "_" ++ Nat.repr pid ++ "_" ++ Nat.repr timeNs ++ ".m4a"

/-- The pair of temp file names a run of `_process_segment` uses, where
`timeNs` is the value `time.time_ns()` returned in that run (lines 88-95). -/
def segmentTempFiles (subdir : String) (pid timeNs : ℕ) : String × String :=
  (tempVideoName subdir pid, tempAudioName subdir pid timeNs)

/-- Number of frames accumulated by the loop at lines 117-127: the stop flag
is read before each frame and the loop breaks at the first set observation,
so the frames list holds the longest prefix of clear observations. -/
def framesRendered (stop : ℕ → Bool) (total : ℕ) : ℕ :=
  ((List.range total).takeWhile (fun i => !stop i)).length

/-- Outcome of `_write_temp_video` (lines 154-185) given the number of frames
handed to it. `ImageSequenceClip` cannot be built from an empty frame
sequence (MoviePy raises before creating any file), so zero frames is an
error and no file appears on disk; otherwise `encodeOk` abstracts the
external encoder run, which on success creates both temp files. -/
def write_temp_video (frames : ℕ) (encodeOk : Bool) : Except PyErr Unit :=
  if frames = 0 then .error (.valueError "ImageSequenceClip requires a non-empty frame sequence")
  else if encodeOk then .ok () else .error (.calledProcessError "encoder failed")

/-- Observable outcome of one `_process_segment` run: the returned value or
raised exception, the number of frames in the written clip, and the
increment applied to the shared progress counter (lines 140-141). -/
structure SegOutcome where
  result : Except PyErr (String × String)
  frames : ℕ
  progressDelta : ℕ

/-- `_process_segment` (video_service.py lines 88-152). `load` is the outcome
of `_load_resources` (the audio duration on success), `stop` the per-frame
stop-flag observations, `encodeOk` the encoder outcome, and `timeNs` the
value `time.time_ns()` returned. The frame count is `int(duration * fps)`
(line 111); zero is a `ValueError` (lines 112-114); a set stop flag breaks
the frame loop (lines 118-119) but the partial frame list is still written
(lines 129-134) and the temp paths returned (line 143). -/
def process_segment (fps : ℚ) (load : Except PyErr ℚ) (stop : ℕ → Bool)
    (encodeOk : Bool) (subdir : String) (pid timeNs : ℕ) : SegOutcome :=
  match load with
  | .error e => ⟨.error e, 0, 0⟩
  | .ok duration =>
    let total_frames : ℤ := pyInt (duration * fps)
    if total_frames = 0 then ⟨.error (.valueError (zeroFramesMsg subdir)), 0, 0⟩
    else
      let k := framesRendered stop total_frames.toNat
      match write_temp_video k encodeOk with
      | .error e => ⟨.error e, k, 0⟩
      | .ok _ => ⟨.ok (segmentTempFiles subdir pid timeNs), k, 1⟩

/-- Content of `chapter_dir/video.mp4` as observable on disk. -/
inductive OutContent where
  | preexisting (id : ℕ)
  | absent
  | merged (clips : List String)
  deriving DecidableEq

/-- `_merge_videos` (lines 279-328): writes the concat list, runs ffmpeg into
a temp output path, and atomically `os.replace`s it over `video.mp4` only if
the subprocess succeeded; on `CalledProcessError` the destination is
untouched, and the list file and temp output are removed either way.
Returns the result and the resulting content of `video.mp4`. -/
def merge_videos (mergeOk : Bool) (tempVideos : List String) (current : OutContent) :
    Except PyErr String × OutContent :=
  if mergeOk then (.ok "video.mp4", .merged tempVideos)
  else (.error (.calledProcessError "Merge failed"), current)

/-- Per-job environment: everything outside `generate_video` that determines
a run. `segStop s i` is the stop-flag value segment `s` observes at its
`i`-th frame check; `batchStop b` the value observed at the end-of-batch
check of the `b`-th batch (line 237). `load`, `encodeOk` and `mergeOk`
abstract the filesystem and the external encoder. -/
structure JobEnv where
  subdirs : List String
  fps : ℚ
  batchSize : ℕ
  pid : ℕ
  timeNs : String → ℕ
  load : String → Except PyErr ℚ
  segStop : String → ℕ → Bool
  batchStop : ℕ → Bool
  encodeOk : String → Bool
  mergeOk : Bool

/-- One segment's `_process_segment` run inside a job. -/
def runSegment (env : JobEnv) (s : String) : SegOutcome :=
  process_segment env.fps (env.load s) (env.segStop s) (env.encodeOk s) s env.pid (env.timeNs s)

/-- Accumulator of the batch loop: `temp_video_files`, `all_temp_files` and
the shared progress counter (lines 195-196, 209-211). -/
structure LoopState where
  tempVideos : List String
  allTemps : List String
  progress : ℕ
  deriving DecidableEq

/-- Collecting one batch's gathered results (lines 227-234): exceptions are
only logged, successful results append the clip path to `temp_video_files`
and both paths to `all_temp_files`; the progress increments of lines 140-141
are accounted per successful segment. -/
def collectBatch (st : LoopState) (outs : List SegOutcome) : LoopState :=
  outs.foldl (fun acc o =>
    match o.result with
    | .ok (v, a) => ⟨acc.tempVideos ++ [v], acc.allTemps ++ [v, a], acc.progress + o.progressDelta⟩
    | .error _ => acc) st

/-- Fuel-driven core of the batch partition. -/
def batchesFuel (size : ℕ) : ℕ → List String → List (List String)
  | 0, _ => []
  | _, [] => []
  | fuel + 1, l => l.take size :: batchesFuel size fuel (l.drop size)

/-- The batch partition `subdirs[i:i+batch_size]` for
`i in range(0, len(subdirs), batch_size)` (lines 218-219). Faithful for
`1 ≤ size` (Python raises on a zero step). -/
def batches (size : ℕ) (l : List String) : List (List String) :=
  batchesFuel size l.length l

/-- The batch loop of `generate_video` (lines 218-240): each batch is
processed, its results collected, and then the stop flag is checked; if it
is set the job raises the cancellation `ValueError` (line 240). Returns the
final accumulator and the raised error, if any. -/
def runBatches (env : JobEnv) : List (List String) → ℕ → LoopState → LoopState × Option PyErr
  | [], _, st => (st, none)
  | b :: rest, bIdx, st =>
    let st' := collectBatch st (b.map (runSegment env))
    if env.batchStop bIdx then (st', some (.valueError cancelledMsg))
    else runBatches env rest (bIdx + 1) st'

/-- Observable outcome of a `generate_video` run: result or raised error, the
content of `chapter_dir/video.mp4` afterwards, the temp files created during
the run (before the guaranteed cleanup removes them), the number of
successfully rendered segments, and the final progress counter. -/
structure RunOutcome where
  result : Except PyErr String
  output : OutContent
  tempsCreated : List String
  successes : ℕ
  progress : ℕ

/-- `generate_video` (video_service.py lines 187-277). Line 190 is
`self.stop_flag.clear()`: a cancellation requested before the job started
(`flagSetBeforeStart`) is discarded and cannot influence the run. After the
batch loop the all-or-nothing check of lines 242-245 compares successful
segments against the total, lines 248-249 reject an empty merge list, and on
success `_merge_videos` atomically replaces the output and the progress is
set to the total (lines 263-266). `initial` is the prior content of
`chapter_dir/video.mp4`. -/
def generate_video (flagSetBeforeStart : Bool) (env : JobEnv) (initial : OutContent) :
    RunOutcome :=
  let _cleared := flagSetBeforeStart
  if env.subdirs.isEmpty then ⟨.error (.valueError noSegmentsMsg), initial, [], 0, 0⟩
  else
    match runBatches env (batches env.batchSize env.subdirs) 0 ⟨[], [], 0⟩ with
    | (st, some e) => ⟨.error e, initial, st.allTemps, st.tempVideos.length, st.progress⟩
    | (st, none) =>
      if st.tempVideos.length ≠ env.subdirs.length then
        ⟨.error (.valueError someFailedMsg), initial, st.allTemps, st.tempVideos.length,
          st.progress⟩
      else if st.tempVideos.isEmpty then
        ⟨.error (.valueError noneGeneratedMsg), initial, st.allTemps, st.tempVideos.length,
          st.progress⟩
      else
        match merge_videos env.mergeOk st.tempVideos initial with
        | (.ok path, out) =>
          ⟨.ok path, out, st.allTemps, st.tempVideos.length, env.subdirs.length⟩
        | (.error e, out) =>
          ⟨.error e, out, st.allTemps, st.tempVideos.length, st.progress⟩

/-- `cancel_generation` (lines 361-364): sets the stop flag, returns `True`.
Takes and returns the flag value paired with the Python return value. -/
def cancel_generation (_stopFlag : Bool) : Bool × Bool := (true, true)

/-- Snapshot returned by `get_progress` (lines 349-359). -/
structure ProgressSnapshot where
  progress : ℕ
  total : ℕ
  percentage : ℤ
  current_task : Option String
  deriving DecidableEq

/-- `get_progress` (video_service.py lines 349-359): under the task lock the
total is clamped to at least 1 and the percentage computed against the
clamped total. -/
def get_progress (progress total_segments : ℕ) (current_task : Option String) :
    ProgressSnapshot :=
  let total := max 1 total_segments
  ⟨progress, total, pyInt (((progress : ℚ) / (total : ℚ)) * 100), current_task⟩

/-- Shared progress state of the service (`self.progress`,
`self.total_segments`), together with the ghost count `remaining` of the
running job's segments that have not finished yet (each segment of a job is
processed exactly once). -/
structure TaskState where
  progress : ℕ
  total : ℕ
  remaining : ℕ
  deriving DecidableEq

/-- One lock-protected mutation of the progress state:
job initialisation (lines 209-211), a segment finishing with or without
success (lines 140-141: the counter is incremented only on success), and
job completion after the merge (lines 264-266). -/
inductive TaskStep : TaskState → TaskState → Prop
  | startJob (s : TaskState) (n : ℕ) : TaskStep s ⟨0, n, n⟩
  | segmentSuccess (p t r : ℕ) : TaskStep ⟨p, t, r + 1⟩ ⟨p + 1, t, r⟩
  | segmentFailed (p t r : ℕ) : TaskStep ⟨p, t, r + 1⟩ ⟨p, t, r⟩
  | finishJob (p t : ℕ) : TaskStep ⟨p, t, 0⟩ ⟨t, t, 0⟩

/-- Progress states reachable from the freshly constructed service
(lines 36-37: progress 0, total 0). -/
inductive ReachableTask : TaskState → Prop
  | init : ReachableTask ⟨0, 0, 0⟩
  | step {s s' : TaskState} : ReachableTask s → TaskStep s s' → ReachableTask s'

/-- Target frame count of a segment inside a job: `int(duration * fps)` of
line 111, clamped to ℕ (`range` of a negative count is empty), and 0 when
the loader failed. -/
def segTotalFrames (env : JobEnv) (s : String) : ℕ :=
  match env.load s with
  | .error _ => 0
  | .ok duration => (pyInt (duration * env.fps)).toNat

/-- Decimal digit list of a natural number, most significant digit first:
what `Nat.toDigitsCore` produces with base 10 and enough fuel. -/
def decDigits (n : ℕ) : List Char :=
  if n < 10 then [Nat.digitChar n]
  else decDigits (n / 10) ++ [Nat.digitChar (n % 10)]
termination_by n
decreasing_by exact Nat.div_lt_self (by omega) (by omega)

/-- Concrete job environment: one segment "1" holding a 2-second audio track,
rendered at 20 fps in batches of 1 by process 42 at time token 7, with no
cancellation and a succeeding encoder and merge. -/
def happyEnv : JobEnv :=
  ⟨["1"], 20, 1, 42, fun _ => 7, fun _ => .ok 2, fun _ _ => false, fun _ => false,
    fun _ => true, true⟩

/-- Like `happyEnv` but the single segment's audio file is missing, so the
loader raises and the segment fails. -/
def failEnv : JobEnv :=
  { happyEnv with load := fun _ => .error (.fileNotFound "File not found: audio.mp3") }

/-- Like `happyEnv` but the stop flag is observed set at every checkpoint
(cancellation requested right after the job start). -/
def cancelEnv : JobEnv :=
  { happyEnv with segStop := fun _ _ => true, batchStop := fun _ => true }

/-! ## General lemmas -/

theorem pyInt_eq_floor {x : ℚ} (h : 0 ≤ x) : pyInt x = ⌊x⌋ := if_pos h

theorem pyInt_intCast (m : ℤ) : pyInt (m : ℚ) = m := by
  unfold pyInt
  split <;> simp

theorem framesRendered_le (stop : ℕ → Bool) (total : ℕ) :
    framesRendered stop total ≤ total := by
  have h := (List.takeWhile_prefix (l := List.range total) (fun i => !stop i)).length_le
  simpa [framesRendered] using h

theorem takeWhile_range_eq (stop : ℕ → Bool) (total : ℕ) :
    (List.range total).takeWhile (fun i => !stop i) =
      List.range (framesRendered stop total) := by
  have hpre := List.takeWhile_prefix (l := List.range total) (fun i => !stop i)
  have htake := List.prefix_iff_eq_take.mp hpre
  have hmin : min (framesRendered stop total) total = framesRendered stop total :=
    Nat.min_eq_left (framesRendered_le stop total)
  calc (List.range total).takeWhile (fun i => !stop i)
      = (List.range total).take (framesRendered stop total) := htake
    _ = List.range (min (framesRendered stop total) total) := List.take_range _ _
    _ = List.range (framesRendered stop total) := by rw [hmin]

theorem framesRendered_sound (stop : ℕ → Bool) (total : ℕ) :
    ∀ i < framesRendered stop total, stop i = false := by
  intro i hi
  have hmem : i ∈ (List.range total).takeWhile (fun i => !stop i) := by
    rw [takeWhile_range_eq, List.mem_range]
    exact hi
  have := List.mem_takeWhile_imp hmem
  simpa using this

theorem framesRendered_stop_le (stop : ℕ → Bool) (total j : ℕ)
    (hs : stop j = true) : framesRendered stop total ≤ j := by
  by_contra h
  push_neg at h
  have := framesRendered_sound stop total j h
  rw [this] at hs
  exact Bool.false_ne_true hs

theorem framesRendered_of_no_stop (stop : ℕ → Bool) (total : ℕ)
    (h : ∀ i < total, stop i = false) : framesRendered stop total = total := by
  unfold framesRendered
  rw [List.takeWhile_eq_self_iff.mpr, List.length_range]
  intro a ha
  rw [List.mem_range] at ha
  simp [h a ha]

/-! ## Claim C10 -/

/-- Claim C10: `get_progress` never divides by zero: the percentage is
computed against `max 1 total_segments`, so for every service state —
including the fresh service where `total_segments = 0` and `progress = 0` —
the snapshot reports a total of at least 1; before any job has started it
reports total 1 and percentage 0 rather than the true zero total. -/
theorem get_progress_total_clamped (progress total_segments : ℕ) (task : Option String) :
    (get_progress progress total_segments task).total = max 1 total_segments ∧
    1 ≤ (get_progress progress total_segments task).total ∧
    (get_progress progress 0 task).total = 1 ∧
    (get_progress 0 0 task).percentage = 0 ∧
    (get_progress progress total_segments task).progress = progress := by
  refine ⟨rfl, le_max_left 1 total_segments, rfl, ?_, rfl⟩
  norm_num [get_progress, pyInt]

/-! ## Claim C6 -/

/-- Claim C6: `fade_effect` is the identity when `fade_duration ≤ 0`;
otherwise the brightness multiplier is `time_val / fade_duration` during the
first `fade_duration` seconds (the in-ramp taking precedence when the ramps
overlap), 1 in the middle — in particular at `duration / 2` whenever
`duration > 2 * fade_duration` — and `(duration - time_val) / fade_duration`
during the last `fade_duration` seconds; the multiplier is applied as a
global brightness scale on the image. -/
theorem fade_effect_spec (image : Img) (time_val duration fade_duration : ℚ) :
    (fade_duration ≤ 0 → fade_effect image time_val duration fade_duration = image) ∧
    (time_val < fade_duration →
      fadeBrightness fade_duration time_val duration = time_val / fade_duration) ∧
    (fade_duration ≤ time_val → fade_duration ≤ duration - time_val →
      fadeBrightness fade_duration time_val duration = 1) ∧
    (fade_duration ≤ time_val → duration - time_val < fade_duration →
      fadeBrightness fade_duration time_val duration =
        (duration - time_val) / fade_duration) ∧
    (0 < fade_duration → 2 * fade_duration < duration →
      fadeBrightness fade_duration (duration / 2) duration = 1) ∧
    (0 < fade_duration →
      (fade_effect image time_val duration fade_duration).brightness =
        image.brightness * fadeBrightness fade_duration time_val duration) := by
  refine ⟨?_, ?_, ?_, ?_, ?_, ?_⟩
  · intro h
    rw [fade_effect, if_pos h]
  · intro h
    rw [fadeBrightness, if_pos h]
  · intro h1 h2
    rw [fadeBrightness, if_neg (not_lt.mpr h1), if_neg (not_lt.mpr h2)]
  · intro h1 h2
    rw [fadeBrightness, if_neg (not_lt.mpr h1), if_pos h2]
  · intro hfd hmid
    have h1 : fade_duration ≤ duration / 2 := by linarith
    have h2 : fade_duration ≤ duration - duration / 2 := by linarith
    rw [fadeBrightness, if_neg (not_lt.mpr h1), if_neg (not_lt.mpr h2)]
  · intro hfd
    rw [fade_effect, if_neg (not_le.mpr hfd)]
    by_cases hbr : fadeBrightness fade_duration time_val duration < 1
    · simp [hbr, enhanceBrightness]
    · have hone : fadeBrightness fade_duration time_val duration = 1 := by
        rw [fadeBrightness] at hbr ⊢
        split_ifs with hin hout
        · exact absurd ((div_lt_one hfd).mpr hin) (by simp_all [fadeBrightness, hin])
        · exact absurd ((div_lt_one hfd).mpr hout) (by simp_all [fadeBrightness, hin, hout])
        · rfl
      simp [hbr, hone]

/-- Witness for claim C6: with fade_duration 1, the multiplier at time 0 is
0 and at the midpoint of a 5-second segment it is 1; with fade_duration 0
the effect is the identity. -/
theorem fade_effect_witness :
    (0 : ℚ) < 1 ∧
    fadeBrightness 1 0 5 = 0 / 1 ∧
    fadeBrightness 1 ((5 : ℚ) / 2) 5 = 1 ∧
    fade_effect ⟨64, 64, 1⟩ 7 5 0 = ⟨64, 64, 1⟩ := by
  have h0 := fade_effect_spec ⟨64, 64, 1⟩ 0 5 1
  have hid := fade_effect_spec ⟨64, 64, 1⟩ 7 5 0
  have hmid := fade_effect_spec ⟨64, 64, 1⟩ ((5 : ℚ) / 2) 5 1
  exact ⟨by decide, h0.2.1 (by decide), hmid.2.2.2.2.1 (by decide) (by norm_num),
    hid.1 (by decide)⟩

/-! ## Claim C9 -/

/-- Auxiliary invariant of the progress transition system: completed plus
remaining segments never exceed the total. -/
theorem taskState_invariant {st : TaskState} (h : ReachableTask st) :
    st.progress + st.remaining ≤ st.total := by
  induction h with
  | init => simp
  | step _ hstep ih =>
    cases hstep with
    | startJob s n => simp
    | segmentSuccess p t r => simp_all; omega
    | segmentFailed p t r => simp_all; omega
    | finishJob p t => simp

/-- Claim C9: the shared completed counter is incremented exactly once per
segment and only when the segment succeeds — a failing segment raises a
segment-scoped error without touching the counter — and in every reachable
progress state the completed count never exceeds the total. -/
theorem progress_counter_spec :
    (∀ (fps : ℚ) (load : Except PyErr ℚ) (stop : ℕ → Bool) (encodeOk : Bool)
      (subdir : String) (pid timeNs : ℕ),
      ((∃ v, (process_segment fps load stop encodeOk subdir pid timeNs).result = .ok v) →
        (process_segment fps load stop encodeOk subdir pid timeNs).progressDelta = 1) ∧
      ((∃ e, (process_segment fps load stop encodeOk subdir pid timeNs).result = .error e) →
        (process_segment fps load stop encodeOk subdir pid timeNs).progressDelta = 0)) ∧
    (∀ st : TaskState, ReachableTask st → st.progress ≤ st.total) := by
  constructor
  · intro fps load stop encodeOk subdir pid timeNs
    cases load with
    | error e => simp [process_segment]
    | ok d =>
      by_cases h0 : pyInt (d * fps) = 0
      · simp [process_segment, h0]
      · cases hw : write_temp_video (framesRendered stop (pyInt (d * fps)).toNat) encodeOk with
        | error e => simp [process_segment, h0, hw]
        | ok u => simp [process_segment, h0, hw]
  · intro st h
    exact le_trans (Nat.le_add_right _ _) (taskState_invariant h)

/-- Witness for claim C9 at concrete inputs: the state (progress 1, total 2,
one segment pending) is reachable and satisfies the bound, and a concrete
failing segment leaves the counter untouched. -/
theorem progress_counter_witness :
    ReachableTask ⟨1, 2, 1⟩ ∧ (1 : ℕ) ≤ 2 ∧
    (∃ e, (process_segment 20 (.error (.fileNotFound "missing")) (fun _ => false) true
      "1" 42 7).result = .error e) ∧
    (process_segment 20 (.error (.fileNotFound "missing")) (fun _ => false) true
      "1" 42 7).progressDelta = 0 := by
  have hreach : ReachableTask ⟨1, 2, 1⟩ :=
    .step (.step .init (.startJob _ 2)) (.segmentSuccess 0 2 1)
  have herr : ∃ e, (process_segment 20 (.error (.fileNotFound "missing")) (fun _ => false) true
      "1" 42 7).result = .error e := ⟨.fileNotFound "missing", rfl⟩
  exact ⟨hreach, progress_counter_spec.2 ⟨1, 2, 1⟩ hreach,
    herr, (progress_counter_spec.1 20 _ _ true "1" 42 7).2 herr⟩

/-! ## Shape lemmas for `process_segment` -/

theorem process_segment_load_error (fps : ℚ) (e : PyErr) (stop : ℕ → Bool)
    (encodeOk : Bool) (subdir : String) (pid timeNs : ℕ) :
    process_segment fps (.error e) stop encodeOk subdir pid timeNs = ⟨.error e, 0, 0⟩ := rfl

theorem process_segment_zero (fps duration : ℚ) (stop : ℕ → Bool) (encodeOk : Bool)
    (subdir : String) (pid timeNs : ℕ) (h0 : pyInt (duration * fps) = 0) :
    process_segment fps (.ok duration) stop encodeOk subdir pid timeNs =
      ⟨.error (.valueError (zeroFramesMsg subdir)), 0, 0⟩ := by
  simp only [process_segment]
  rw [if_pos h0]

theorem process_segment_pos (fps duration : ℚ) (stop : ℕ → Bool) (encodeOk : Bool)
    (subdir : String) (pid timeNs : ℕ) (h0 : ¬ pyInt (duration * fps) = 0) :
    process_segment fps (.ok duration) stop encodeOk subdir pid timeNs =
      (match write_temp_video (framesRendered stop (pyInt (duration * fps)).toNat) encodeOk with
      | .error e => ⟨.error e, framesRendered stop (pyInt (duration * fps)).toNat, 0⟩
      | .ok _ => ⟨.ok (segmentTempFiles subdir pid timeNs),
          framesRendered stop (pyInt (duration * fps)).toNat, 1⟩) := by
  simp only [process_segment]
  rw [if_neg h0]

/-! ## Claim C5 -/

/-- Claim C5: for a segment whose audio loaded with duration D, the frame
count is floor(D * fps) — truncation and floor agree on the nonnegative
product — and a zero frame count raises a hard, segment-scoped `ValueError`
(leaving the progress counter untouched) rather than silently skipping the
segment. -/
theorem frame_count_spec (fps duration : ℚ) (stop : ℕ → Bool) (encodeOk : Bool)
    (subdir : String) (pid timeNs : ℕ) (hd : 0 ≤ duration) (hf : 0 ≤ fps) :
    pyInt (duration * fps) = ⌊duration * fps⌋ ∧
    ((∀ i, stop i = false) →
      (process_segment fps (.ok duration) stop encodeOk subdir pid timeNs).frames =
        (⌊duration * fps⌋).toNat) ∧
    (⌊duration * fps⌋ = 0 →
      (process_segment fps (.ok duration) stop encodeOk subdir pid timeNs).result =
        .error (.valueError (zeroFramesMsg subdir)) ∧
      (process_segment fps (.ok duration) stop encodeOk subdir pid timeNs).progressDelta
        = 0) := by
  have hfl : pyInt (duration * fps) = ⌊duration * fps⌋ := pyInt_eq_floor (mul_nonneg hd hf)
  refine ⟨hfl, ?_, ?_⟩
  · intro hstop
    have hfr : framesRendered stop (pyInt (duration * fps)).toNat =
        (pyInt (duration * fps)).toNat :=
      framesRendered_of_no_stop _ _ (fun i _ => hstop i)
    by_cases h0 : pyInt (duration * fps) = 0
    · have hz : ⌊duration * fps⌋ = 0 := hfl ▸ h0
      rw [process_segment_zero fps duration stop encodeOk subdir pid timeNs h0, hz]
      rfl
    · rw [process_segment_pos fps duration stop encodeOk subdir pid timeNs h0]
      cases hw : write_temp_video (framesRendered stop (pyInt (duration * fps)).toNat)
          encodeOk with
      | error e => simp only [hw]; rw [hfr, hfl]
      | ok u => simp only [hw]; rw [hfr, hfl]
  · intro h0
    have hz : pyInt (duration * fps) = 0 := by rw [hfl, h0]
    rw [process_segment_zero fps duration stop encodeOk subdir pid timeNs hz]
    exact ⟨rfl, rfl⟩

/-- Witness for claim C5 at fps 20 and a 2-second audio duration. -/
theorem frame_count_witness :
    (0 : ℚ) ≤ 2 ∧ (0 : ℚ) ≤ 20 ∧
    pyInt ((2 : ℚ) * 20) = ⌊(2 : ℚ) * 20⌋ ∧
    (process_segment 20 (.ok 2) (fun _ => false) true "1" 42 7).frames =
      (⌊(2 : ℚ) * 20⌋).toNat := by
  have h := frame_count_spec 20 2 (fun _ => false) true "1" 42 7 (by decide) (by decide)
  exact ⟨by decide, by decide, h.1, h.2.1 (fun _ => rfl)⟩

/-- Concrete frame counts of the specification scenario: 2.0 s and 3.0 s of
audio at 20 fps give 40 and 60 frames respectively. -/
theorem frame_count_forty_sixty :
    (process_segment 20 (.ok 2) (fun _ => false) true "1" 42 7).frames = 40 ∧
    (process_segment 20 (.ok 3) (fun _ => false) true "2" 42 8).frames = 60 := by
  have h40 : pyInt ((2 : ℚ) * 20) = 40 := by norm_num [pyInt]
  have h60 : pyInt ((3 : ℚ) * 20) = 60 := by norm_num [pyInt]
  have hf40 : framesRendered (fun _ => false) 40 = 40 := by decide
  have hf60 : framesRendered (fun _ => false) 60 = 60 := by decide
  constructor
  · simp [process_segment, h40, write_temp_video, hf40]
  · simp [process_segment, h60, write_temp_video, hf60]

/-! ## Claim C4 -/

theorem decDigits_lt {n : ℕ} (h : n < 10) : decDigits n = [Nat.digitChar n] := by
  rw [decDigits.eq_def, if_pos h]

theorem decDigits_ge {n : ℕ} (h : ¬ n < 10) :
    decDigits n = decDigits (n / 10) ++ [Nat.digitChar (n % 10)] := by
  conv_lhs => rw [decDigits.eq_def]
  rw [if_neg h]

theorem decDigits_ne_nil (n : ℕ) : decDigits n ≠ [] := by
  by_cases h : n < 10
  · simp [decDigits_lt h]
  · simp [decDigits_ge h]

theorem digitChar_inj_of_lt {a b : ℕ} (ha : a < 10) (hb : b < 10)
    (h : Nat.digitChar a = Nat.digitChar b) : a = b := by
  have hfin : ∀ x y : Fin 10, Nat.digitChar x.val = Nat.digitChar y.val → x = y := by decide
  exact congrArg Fin.val (hfin ⟨a, ha⟩ ⟨b, hb⟩ h)

theorem toDigitsCore_eq_decDigits :
    ∀ (fuel n : ℕ) (ds : List Char), n < fuel →
      Nat.toDigitsCore 10 fuel n ds = decDigits n ++ ds := by
  intro fuel
  induction fuel with
  | zero => exact fun n ds h => absurd h (Nat.not_lt_zero n)
  | succ fuel ih =>
    intro n ds h
    by_cases h10 : n < 10
    · have hdiv : n / 10 = 0 := Nat.div_eq_of_lt h10
      have hmod : n % 10 = n := Nat.mod_eq_of_lt h10
      rw [decDigits_lt h10]
      simp [Nat.toDigitsCore, hdiv, hmod]
    · have hdiv : ¬ n / 10 = 0 := by
        have := Nat.div_pos (not_lt.mp h10) (by omega)
        omega
      have hlt : n / 10 < fuel := by
        have hself := Nat.div_lt_self (by omega : 0 < n) (by omega : 1 < 10)
        omega
      have hstep : Nat.toDigitsCore 10 (fuel + 1) n ds =
          Nat.toDigitsCore 10 fuel (n / 10) (Nat.digitChar (n % 10) :: ds) := by
        simp [Nat.toDigitsCore, hdiv]
      rw [hstep, ih (n / 10) _ hlt, decDigits_ge h10]
      simp

theorem decDigits_injective : ∀ m n : ℕ, decDigits m = decDigits n → m = n := by
  intro m
  induction m using Nat.strong_induction_on with
  | _ m ih =>
    intro n h
    by_cases hm : m < 10 <;> by_cases hn : n < 10
    · rw [decDigits_lt hm, decDigits_lt hn] at h
      exact digitChar_inj_of_lt hm hn (by simpa using h)
    · rw [decDigits_lt hm, decDigits_ge hn] at h
      cases hds : decDigits (n / 10) with
      | nil => exact absurd hds (decDigits_ne_nil _)
      | cons x xs => rw [hds] at h; simp at h
    · rw [decDigits_ge hm, decDigits_lt hn] at h
      cases hds : decDigits (m / 10) with
      | nil => exact absurd hds (decDigits_ne_nil _)
      | cons x xs => rw [hds] at h; simp at h
    · rw [decDigits_ge hm, decDigits_ge hn] at h
      obtain ⟨h1, h2⟩ := List.append_inj' h (by simp)
      have hdiv : m / 10 = n / 10 :=
        ih (m / 10) (Nat.div_lt_self (by omega) (by omega)) _ h1
      have hmod : m % 10 = n % 10 :=
        digitChar_inj_of_lt (Nat.mod_lt _ (by omega)) (Nat.mod_lt _ (by omega))
          (by simpa using h2)
      omega

theorem natRepr_injective {m n : ℕ} (h : Nat.repr m = Nat.repr n) : m = n := by
  have hm : Nat.repr m = (decDigits m).asString := by
    show (Nat.toDigitsCore 10 (m + 1) m []).asString = _
    rw [toDigitsCore_eq_decDigits (m + 1) m [] (Nat.lt_succ_self m)]
    simp
  have hn : Nat.repr n = (decDigits n).asString := by
    show (Nat.toDigitsCore 10 (n + 1) n []).asString = _
    rw [toDigitsCore_eq_decDigits (n + 1) n [] (Nat.lt_succ_self n)]
    simp
  rw [hm, hn] at h
  exact decDigits_injective m n (congrArg String.data h)

/-- Claim C4 counterexample: two runs of `_process_segment` for the same
segment "1" in the same process 42 but with distinct `time.time_ns()` tokens
0 and 1 produce the same temp video file name — the video name embeds no
high-resolution token, so those two names collide — while the audio names
differ. -/
theorem temp_names_counterexample :
    (0 : ℕ) ≠ 1 ∧
    (segmentTempFiles "1" 42 0).1 = (segmentTempFiles "1" 42 1).1 ∧
    (segmentTempFiles "1" 42 0).2 ≠ (segmentTempFiles "1" 42 1).2 :=
  ⟨by decide, rfl, by decide⟩

/-- Claim C4 (amended): only the temp intermediate audio name embeds the
segment id, process id and the unique high-resolution token: for a fixed
segment id and process id, distinct `time.time_ns` tokens give distinct
audio names, while the temp video name is the same string regardless of the
token, so runs differing only in the token always collide on the video name
and never on the audio name. -/
theorem temp_names_token_spec (subdir : String) (pid t u : ℕ) (h : t ≠ u) :
    (segmentTempFiles subdir pid t).1 = (segmentTempFiles subdir pid u).1 ∧
    (segmentTempFiles subdir pid t).2 ≠ (segmentTempFiles subdir pid u).2 := by
  refine ⟨rfl, ?_⟩
  intro he
  apply h
  have hd := congrArg String.data he
  simp only [segmentTempFiles, tempAudioName, String.data_append, List.append_assoc] at hd
  have hcut : (Nat.repr t).data ++ ".m4a".data = (Nat.repr u).data ++ ".m4a".data := by
    simpa using hd
  have hdata : (Nat.repr t).data = (Nat.repr u).data := (List.append_inj' hcut rfl).1
  exact natRepr_injective (String.ext hdata)

/-- Witness for the amended claim C4 at segment "1", pid 42, tokens 0 and 1. -/
theorem temp_names_token_witness :
    (0 : ℕ) ≠ 1 ∧
    (segmentTempFiles "1" 42 0).1 = (segmentTempFiles "1" 42 1).1 ∧
    (segmentTempFiles "1" 42 1).2 ≠ (segmentTempFiles "1" 42 0).2 := by
  have h := temp_names_token_spec "1" 42 1 0 (by decide)
  exact ⟨by decide, h.1.symm, h.2⟩

/-! ## Claim C7 -/

theorem pyInt_natCast (n : ℕ) : pyInt ((n : ℕ) : ℚ) = (n : ℤ) := by
  rw [pyInt_eq_floor (Nat.cast_nonneg n)]
  exact Int.floor_natCast n

/-- Claim C7: with pan_range (0,0), `pan_effect` takes the centre-crop path
and, for positive image and output dimensions, produces an output of exactly
`output_size` pixels, obtained by scaling both source dimensions by one
uniform ratio (aspect preserved, no stretch) to cover the output and then
cropping a centred window that stays inside the scaled image. -/
theorem center_crop_spec (img_w img_h out_w out_h segment_index : ℕ)
    (time_val duration : ℝ)
    (hiw : 0 < img_w) (hih : 0 < img_h) (how : 0 < out_w) (hoh : 0 < out_h) :
    pan_effect img_w img_h out_w out_h 0 0 segment_index time_val duration =
      center_crop img_w img_h out_w out_h ∧
    (∀ c : CropSpec, c = center_crop img_w img_h out_w out_h →
      c.right - c.left = (out_w : ℤ) ∧
      c.bottom - c.top = (out_h : ℤ) ∧
      (out_w : ℤ) ≤ c.scaledW ∧ (out_h : ℤ) ≤ c.scaledH ∧
      c.left = (c.scaledW - (out_w : ℤ)).fdiv 2 ∧
      c.top = (c.scaledH - (out_h : ℤ)).fdiv 2 ∧
      0 ≤ c.left ∧ c.right ≤ c.scaledW ∧ 0 ≤ c.top ∧ c.bottom ≤ c.scaledH ∧
      ∃ s : ℚ, 0 < s ∧ c.scaledW = pyInt ((img_w : ℚ) * s) ∧
        c.scaledH = pyInt ((img_h : ℚ) * s)) := by
  have hiw' : (0 : ℚ) < (img_w : ℚ) := by exact_mod_cast hiw
  have hih' : (0 : ℚ) < (img_h : ℚ) := by exact_mod_cast hih
  have how' : (0 : ℚ) < (out_w : ℚ) := by exact_mod_cast how
  have hoh' : (0 : ℚ) < (out_h : ℚ) := by exact_mod_cast hoh
  constructor
  · simp [pan_effect]
  · intro c hc
    subst hc
    by_cases hb : (out_w : ℚ) / (out_h : ℚ) < (img_w : ℚ) / (img_h : ℚ)
    · -- image wider than output after height matching
      simp only [center_crop]
      rw [if_pos hb]
      have harg : (0 : ℚ) ≤ ((out_h : ℤ) : ℚ) * ((img_w : ℚ) / (img_h : ℚ)) := by
        push_cast
        positivity
      have hlt : (out_w : ℚ) < ((out_h : ℤ) : ℚ) * ((img_w : ℚ) / (img_h : ℚ)) := by
        push_cast
        rw [div_lt_div_iff₀ hoh' hih'] at hb
        rw [← mul_div_assoc, lt_div_iff₀ hih']
        linarith
      have hcover : (out_w : ℤ) ≤ pyInt (((out_h : ℤ) : ℚ) * ((img_w : ℚ) / (img_h : ℚ))) := by
        rw [pyInt_eq_floor harg]
        exact Int.le_floor.mpr (by exact_mod_cast le_of_lt hlt)
      set nw : ℤ := pyInt (((out_h : ℤ) : ℚ) * ((img_w : ℚ) / (img_h : ℚ))) with hnw
      have hfd : (nw - (out_w : ℤ)).fdiv 2 = (nw - (out_w : ℤ)) / 2 :=
        Int.fdiv_eq_ediv _ (by decide)
      have hfd_le : (nw - (out_w : ℤ)).fdiv 2 ≤ nw - (out_w : ℤ) := by
        rw [hfd]
        exact Int.ediv_le_self 2 (by omega)
      have hfd_nonneg : 0 ≤ (nw - (out_w : ℤ)).fdiv 2 := by
        rw [hfd]
        exact Int.ediv_nonneg (by omega) (by decide)
      refine ⟨by dsimp only; omega, by dsimp only; omega, hcover, le_refl _, rfl, ?_, hfd_nonneg,
        by dsimp only; omega, le_refl _, le_refl _, ?_⟩
      · rw [sub_self]
        rfl
      · refine ⟨(out_h : ℚ) / (img_h : ℚ), div_pos hoh' hih', ?_, ?_⟩
        · rw [hnw]
          refine congrArg pyInt ?_
          push_cast
          ring
        · rw [show (img_h : ℚ) * ((out_h : ℚ) / (img_h : ℚ)) = (out_h : ℚ) by
            field_simp]
          exact (pyInt_natCast out_h).symm
    · -- image taller than (or matching) the output aspect
      simp only [center_crop]
      rw [if_neg hb]
      push_neg at hb
      have harg : (0 : ℚ) ≤ ((out_w : ℤ) : ℚ) / ((img_w : ℚ) / (img_h : ℚ)) := by
        push_cast
        positivity
      have hge : (out_h : ℚ) ≤ ((out_w : ℤ) : ℚ) / ((img_w : ℚ) / (img_h : ℚ)) := by
        push_cast
        rw [div_div_eq_mul_div]
        rw [div_le_div_iff₀ hih' hoh'] at hb
        rw [le_div_iff₀ hiw']
        linarith
      have hcover : (out_h : ℤ) ≤ pyInt (((out_w : ℤ) : ℚ) / ((img_w : ℚ) / (img_h : ℚ))) := by
        rw [pyInt_eq_floor harg]
        exact Int.le_floor.mpr (by exact_mod_cast hge)
      set nh : ℤ := pyInt (((out_w : ℤ) : ℚ) / ((img_w : ℚ) / (img_h : ℚ))) with hnh
      have hfd : (nh - (out_h : ℤ)).fdiv 2 = (nh - (out_h : ℤ)) / 2 :=
        Int.fdiv_eq_ediv _ (by decide)
      have hfd_le : (nh - (out_h : ℤ)).fdiv 2 ≤ nh - (out_h : ℤ) := by
        rw [hfd]
        exact Int.ediv_le_self 2 (by omega)
      have hfd_nonneg : 0 ≤ (nh - (out_h : ℤ)).fdiv 2 := by
        rw [hfd]
        exact Int.ediv_nonneg (by omega) (by decide)
      refine ⟨by dsimp only; omega, by dsimp only; omega, le_refl _, hcover, ?_, rfl, le_refl _, le_refl _,
        hfd_nonneg, by dsimp only; omega, ?_⟩
      · rw [sub_self]
        rfl
      · refine ⟨(out_w : ℚ) / (img_w : ℚ), div_pos how' hiw', ?_, ?_⟩
        · rw [show (img_w : ℚ) * ((out_w : ℚ) / (img_w : ℚ)) = (out_w : ℚ) by
            field_simp]
          exact (pyInt_natCast out_w).symm
        · rw [hnh]
          refine congrArg pyInt ?_
          push_cast
          field_simp
          ring

/-- Witness for claim C7 at a 200 x 100 image and a 50 x 50 output. -/
theorem center_crop_witness :
    (0 : ℕ) < 200 ∧
    pan_effect 200 100 50 50 0 0 0 0 1 = center_crop 200 100 50 50 ∧
    (center_crop 200 100 50 50).right - (center_crop 200 100 50 50).left = 50 ∧
    (center_crop 200 100 50 50).bottom - (center_crop 200 100 50 50).top = 50 := by
  have h := center_crop_spec 200 100 50 50 0 0 1 (by decide) (by decide) (by decide)
    (by decide)
  have h2 := h.2 (center_crop 200 100 50 50) rfl
  exact ⟨by decide, h.1, h2.1, h2.2.1⟩

/-! ## Claim C8 -/

theorem pyIntReal_intCast (m : ℤ) : pyIntReal (m : ℝ) = m := by
  unfold pyIntReal
  split <;> simp

theorem ease_in_out_zero : ease_in_out_progress 0 = 0 := by
  unfold ease_in_out_progress
  simp

theorem ease_in_out_one : ease_in_out_progress 1 = 1 := by
  unfold ease_in_out_progress
  rw [mul_one, Real.cos_pi]
  norm_num

/-- Claim C8: when at least one pan range is positive, the axis is horizontal
for even segment indices and vertical for odd ones when both ranges are
positive, always vertical when only the vertical range is positive, and
horizontal otherwise; the scale factor is
max(out_w (1+h_range)/img_w, out_h/img_h) for the horizontal case and
symmetrically for the vertical case; the crop window of the pan axis slides
with progress 0.5 (1 - cos(pi t/duration)) from offset 0 at t = 0 to
scaled extent minus output extent at t = duration, while the perpendicular
axis stays centred by floor division. -/
theorem pan_axis_scale_slide_spec (img_w img_h out_w out_h segment_index : ℕ)
    (h_range v_range : ℚ) (duration : ℝ)
    (hiw : 0 < img_w) (hih : 0 < img_h) (how : 0 < out_w) (hoh : 0 < out_h)
    (hpos : 0 < h_range ∨ 0 < v_range) (hdur : 0 < duration) :
    (0 < h_range → 0 < v_range →
      (use_horizontal h_range v_range segment_index = true ↔ segment_index % 2 = 0)) ∧
    (0 < v_range → h_range ≤ 0 →
      use_horizontal h_range v_range segment_index = false) ∧
    (v_range ≤ 0 → use_horizontal h_range v_range segment_index = true) ∧
    scale_ratio img_w img_h out_w out_h h_range v_range true =
      max (((out_w : ℚ) * (1 + h_range)) / (img_w : ℚ)) ((out_h : ℚ) / (img_h : ℚ)) ∧
    scale_ratio img_w img_h out_w out_h h_range v_range false =
      max ((out_w : ℚ) / (img_w : ℚ)) (((out_h : ℚ) * (1 + v_range)) / (img_h : ℚ)) ∧
    (∀ p : ℝ, ease_in_out_progress p = 0.5 * (1 - Real.cos (Real.pi * p))) ∧
    (∀ time_val : ℝ,
      pan_effect img_w img_h out_w out_h h_range v_range segment_index time_val duration =
        ⟨(scaled_size img_w img_h (scale_ratio img_w img_h out_w out_h h_range v_range
            (use_horizontal h_range v_range segment_index))).1,
          (scaled_size img_w img_h (scale_ratio img_w img_h out_w out_h h_range v_range
            (use_horizontal h_range v_range segment_index))).2,
          (pan_offsets
            (scaled_size img_w img_h (scale_ratio img_w img_h out_w out_h h_range v_range
              (use_horizontal h_range v_range segment_index))).1
            (scaled_size img_w img_h (scale_ratio img_w img_h out_w out_h h_range v_range
              (use_horizontal h_range v_range segment_index))).2
            out_w out_h (use_horizontal h_range v_range segment_index)
            time_val duration).1,
          (pan_offsets
            (scaled_size img_w img_h (scale_ratio img_w img_h out_w out_h h_range v_range
              (use_horizontal h_range v_range segment_index))).1
            (scaled_size img_w img_h (scale_ratio img_w img_h out_w out_h h_range v_range
              (use_horizontal h_range v_range segment_index))).2
            out_w out_h (use_horizontal h_range v_range segment_index)
            time_val duration).2,
          (pan_offsets
            (scaled_size img_w img_h (scale_ratio img_w img_h out_w out_h h_range v_range
              (use_horizontal h_range v_range segment_index))).1
            (scaled_size img_w img_h (scale_ratio img_w img_h out_w out_h h_range v_range
              (use_horizontal h_range v_range segment_index))).2
            out_w out_h (use_horizontal h_range v_range segment_index)
            time_val duration).1 + (out_w : ℤ),
          (pan_offsets
            (scaled_size img_w img_h (scale_ratio img_w img_h out_w out_h h_range v_range
              (use_horizontal h_range v_range segment_index))).1
            (scaled_size img_w img_h (scale_ratio img_w img_h out_w out_h h_range v_range
              (use_horizontal h_range v_range segment_index))).2
            out_w out_h (use_horizontal h_range v_range segment_index)
            time_val duration).2 + (out_h : ℤ)⟩) ∧
    (use_horizontal h_range v_range segment_index = true →
      ∀ sw sh : ℤ,
        (sw, sh) = scaled_size img_w img_h
          (scale_ratio img_w img_h out_w out_h h_range v_range true) →
        (out_w : ℤ) ≤ sw ∧
        (∀ t : ℝ, (pan_offsets sw sh out_w out_h true t duration).2 =
            (sh - (out_h : ℤ)).fdiv 2 ∧
          (pan_offsets sw sh out_w out_h true t duration).1 =
            pyIntReal (((sw - (out_w : ℤ) : ℤ) : ℝ) *
              ease_in_out_progress (t / duration))) ∧
        (pan_offsets sw sh out_w out_h true 0 duration).1 = 0 ∧
        (pan_offsets sw sh out_w out_h true duration duration).1 = sw - (out_w : ℤ)) ∧
    (use_horizontal h_range v_range segment_index = false →
      ∀ sw sh : ℤ,
        (sw, sh) = scaled_size img_w img_h
          (scale_ratio img_w img_h out_w out_h h_range v_range false) →
        (out_h : ℤ) ≤ sh ∧
        (∀ t : ℝ, (pan_offsets sw sh out_w out_h false t duration).1 =
            (sw - (out_w : ℤ)).fdiv 2 ∧
          (pan_offsets sw sh out_w out_h false t duration).2 =
            pyIntReal (((sh - (out_h : ℤ) : ℤ) : ℝ) *
              ease_in_out_progress (t / duration))) ∧
        (pan_offsets sw sh out_w out_h false 0 duration).2 = 0 ∧
        (pan_offsets sw sh out_w out_h false duration duration).2 = sh - (out_h : ℤ)) := by
  have hiw' : (0 : ℚ) < (img_w : ℚ) := by exact_mod_cast hiw
  have hih' : (0 : ℚ) < (img_h : ℚ) := by exact_mod_cast hih
  have how' : (0 : ℚ) < (out_w : ℚ) := by exact_mod_cast how
  have hoh' : (0 : ℚ) < (out_h : ℚ) := by exact_mod_cast hoh
  refine ⟨?_, ?_, ?_, by simp [scale_ratio], by simp [scale_ratio], fun p => rfl,
    ?_, ?_, ?_⟩
  · intro hh hv
    simp [use_horizontal, hh, hv]
  · intro hv hh
    simp [use_horizontal, not_lt.mpr hh, hv]
  · intro hv
    simp [use_horizontal, not_lt.mpr hv]
  · intro time_val
    have hne : ¬ (h_range ≤ 0 ∧ v_range ≤ 0) := by
      rcases hpos with hh | hv
      · exact fun hand => absurd hand.1 (not_le.mpr hh)
      · exact fun hand => absurd hand.2 (not_le.mpr hv)
    simp only [pan_effect]
    rw [if_neg hne]
  · -- horizontal pan: coverage, centring, eased slide with both endpoints
    intro hz sw sh hsws
    have hh : 0 < h_range := by
      by_contra hcon
      push_neg at hcon
      have hv : 0 < v_range := hpos.resolve_left (not_lt.mpr hcon)
      rw [show use_horizontal h_range v_range segment_index = false by
        simp [use_horizontal, not_lt.mpr hcon, hv]] at hz
      exact Bool.false_ne_true hz
    have hsw : sw = pyInt ((img_w : ℚ) *
        (scale_ratio img_w img_h out_w out_h h_range v_range true)) := by
      have := congrArg Prod.fst hsws
      simpa [scaled_size] using this
    have hrge : ((out_w : ℚ) * (1 + h_range)) / (img_w : ℚ) ≤
        scale_ratio img_w img_h out_w out_h h_range v_range true := by
      simp [scale_ratio]
    have hprod : (out_w : ℚ) < (img_w : ℚ) *
        (scale_ratio img_w img_h out_w out_h h_range v_range true) := by
      have h1 : (out_w : ℚ) < (out_w : ℚ) * (1 + h_range) := by
        nlinarith
      have h2 : (out_w : ℚ) * (1 + h_range) ≤ (img_w : ℚ) *
          (scale_ratio img_w img_h out_w out_h h_range v_range true) := by
        rw [div_le_iff₀ hiw'] at hrge
        linarith
      linarith
    have hcov : (out_w : ℤ) ≤ sw := by
      rw [hsw, pyInt_eq_floor (le_trans (le_of_lt (by exact_mod_cast how')) (le_of_lt hprod))]
      exact Int.le_floor.mpr (by exact_mod_cast le_of_lt hprod)
    refine ⟨hcov, fun t => ⟨rfl, rfl⟩, ?_, ?_⟩
    · show pyIntReal (((sw - (out_w : ℤ) : ℤ) : ℝ) *
        ease_in_out_progress ((0 : ℝ) / duration)) = 0
      rw [zero_div, ease_in_out_zero, mul_zero]
      simpa using pyIntReal_intCast 0
    · show pyIntReal (((sw - (out_w : ℤ) : ℤ) : ℝ) *
        ease_in_out_progress (duration / duration)) = sw - (out_w : ℤ)
      rw [div_self (ne_of_gt hdur), ease_in_out_one, mul_one]
      exact pyIntReal_intCast _
  · -- vertical pan: symmetric
    intro hz sw sh hsws
    have hv : 0 < v_range := by
      by_contra hcon
      push_neg at hcon
      rw [show use_horizontal h_range v_range segment_index = true by
        simp [use_horizontal, not_lt.mpr hcon]] at hz
      simp at hz
    have hsh : sh = pyInt ((img_h : ℚ) *
        (scale_ratio img_w img_h out_w out_h h_range v_range false)) := by
      have := congrArg Prod.snd hsws
      simpa [scaled_size] using this
    have hrge : ((out_h : ℚ) * (1 + v_range)) / (img_h : ℚ) ≤
        scale_ratio img_w img_h out_w out_h h_range v_range false := by
      simp [scale_ratio]
    have hprod : (out_h : ℚ) < (img_h : ℚ) *
        (scale_ratio img_w img_h out_w out_h h_range v_range false) := by
      have h1 : (out_h : ℚ) < (out_h : ℚ) * (1 + v_range) := by
        nlinarith
      have h2 : (out_h : ℚ) * (1 + v_range) ≤ (img_h : ℚ) *
          (scale_ratio img_w img_h out_w out_h h_range v_range false) := by
        rw [div_le_iff₀ hih'] at hrge
        linarith
      linarith
    have hcov : (out_h : ℤ) ≤ sh := by
      rw [hsh, pyInt_eq_floor (le_trans (le_of_lt (by exact_mod_cast hoh')) (le_of_lt hprod))]
      exact Int.le_floor.mpr (by exact_mod_cast le_of_lt hprod)
    refine ⟨hcov, fun t => ⟨rfl, rfl⟩, ?_, ?_⟩
    · show pyIntReal (((sh - (out_h : ℤ) : ℤ) : ℝ) *
        ease_in_out_progress ((0 : ℝ) / duration)) = 0
      rw [zero_div, ease_in_out_zero, mul_zero]
      simpa using pyIntReal_intCast 0
    · show pyIntReal (((sh - (out_h : ℤ) : ℤ) : ℝ) *
        ease_in_out_progress (duration / duration)) = sh - (out_h : ℤ)
      rw [div_self (ne_of_gt hdur), ease_in_out_one, mul_one]
      exact pyIntReal_intCast _

/-- Witness for claim C8 at an 800 x 600 image, 100 x 50 output, horizontal
range 1, vertical range 0, segment index 0, duration 1. -/
theorem pan_axis_scale_slide_witness :
    (0 : ℚ) < 1 ∧
    use_horizontal 1 0 0 = true ∧
    scale_ratio 800 600 100 50 1 0 true =
      max (((100 : ℚ) * (1 + 1)) / (800 : ℚ)) ((50 : ℚ) / (600 : ℚ)) ∧
    (100 : ℤ) ≤ (scaled_size 800 600 (scale_ratio 800 600 100 50 1 0 true)).1 ∧
    (pan_offsets (scaled_size 800 600 (scale_ratio 800 600 100 50 1 0 true)).1
      (scaled_size 800 600 (scale_ratio 800 600 100 50 1 0 true)).2 100 50 true 0 1).1
      = 0 := by
  have h := pan_axis_scale_slide_spec 800 600 100 50 0 1 0 1 (by decide) (by decide)
    (by decide) (by decide) (Or.inl (by decide)) one_pos
  have hz : use_horizontal 1 0 0 = true := h.2.2.1 (by decide)
  have hhor := h.2.2.2.2.2.2.2.1 hz
    (scaled_size 800 600 (scale_ratio 800 600 100 50 1 0 true)).1
    (scaled_size 800 600 (scale_ratio 800 600 100 50 1 0 true)).2 rfl
  exact ⟨by decide, hz, h.2.2.2.1, hhor.1, hhor.2.2.1⟩

/-! ## Lemmas on the batch loop -/

theorem batchesFuel_flatten (size : ℕ) (hs : 1 ≤ size) :
    ∀ (fuel : ℕ) (l : List String), l.length ≤ fuel →
      (batchesFuel size fuel l).flatten = l := by
  intro fuel
  induction fuel with
  | zero =>
    intro l hl
    have hnil : l = [] := List.length_eq_zero.mp (Nat.le_zero.mp hl)
    subst hnil
    rfl
  | succ fuel ih =>
    intro l hl
    cases l with
    | nil => rfl
    | cons x xs =>
      show ((x :: xs).take size :: batchesFuel size fuel ((x :: xs).drop size)).flatten
        = x :: xs
      rw [List.flatten_cons, ih _ (by rw [List.length_drop]; simp at hl ⊢; omega)]
      exact List.take_append_drop size (x :: xs)

theorem batches_flatten (size : ℕ) (hs : 1 ≤ size) (l : List String) :
    (batches size l).flatten = l :=
  batchesFuel_flatten size hs l.length l le_rfl

theorem batches_cons (size : ℕ) (x : String) (xs : List String) :
    batches size (x :: xs) =
      (x :: xs).take size :: batchesFuel size xs.length ((x :: xs).drop size) := rfl

theorem runBatches_none_batchStop (env : JobEnv) :
    ∀ (bs : List (List String)) (idx : ℕ) (st st' : LoopState),
      runBatches env bs idx st = (st', none) →
      ∀ j < bs.length, env.batchStop (idx + j) = false := by
  intro bs
  induction bs with
  | nil =>
    intro idx st st' h j hj
    exact absurd hj (Nat.not_lt_zero j)
  | cons b rest ih =>
    intro idx st st' h j hj
    simp only [runBatches] at h
    by_cases hstop : env.batchStop idx = true
    · rw [if_pos hstop] at h
      exact absurd (congrArg Prod.snd h) (by simp)
    · cases j with
      | zero =>
        rw [Nat.add_zero]
        simpa using hstop
      | succ k =>
        rw [if_neg hstop] at h
        have hk := ih (idx + 1) _ st' h k (by simpa using hj)
        rw [show idx + (k + 1) = idx + 1 + k by omega]
        exact hk

theorem collectBatch_all_error :
    ∀ (outs : List SegOutcome) (st : LoopState),
      (∀ o ∈ outs, ∃ e, o.result = .error e) → collectBatch st outs = st := by
  intro outs
  induction outs with
  | nil => intro st _; rfl
  | cons o rest ih =>
    intro st h
    obtain ⟨e, he⟩ := h o (List.mem_cons_self o rest)
    show List.foldl _ _ (o :: rest) = st
    rw [List.foldl_cons, he]
    exact ih st (fun o' ho' => h o' (List.mem_cons_of_mem _ ho'))

theorem runSegment_error_of_stop0 (env : JobEnv) (s : String)
    (h : env.segStop s 0 = true) : ∃ e, (runSegment env s).result = .error e := by
  unfold runSegment
  cases hload : env.load s with
  | error e => exact ⟨e, by rw [process_segment_load_error]⟩
  | ok d =>
    by_cases h0 : pyInt (d * env.fps) = 0
    · exact ⟨.valueError (zeroFramesMsg s), by
        rw [process_segment_zero _ _ _ _ _ _ _ h0]⟩
    · have hfr : framesRendered (env.segStop s) (pyInt (d * env.fps)).toNat = 0 := by
        cases htot : (pyInt (d * env.fps)).toNat with
        | zero => simp [framesRendered]
        | succ n =>
          have hle := framesRendered_stop_le (env.segStop s) (n + 1) 0 h
          omega
      refine ⟨.valueError "ImageSequenceClip requires a non-empty frame sequence", ?_⟩
      rw [process_segment_pos _ _ _ _ _ _ _ h0, hfr]
      rfl

/-! ## Claim C2 -/

/-- Claim C2: if the count of successfully rendered segments differs from the
total, the job raises an error and the output file keeps its prior content;
the output content changes only when the job fully succeeds — every segment
rendered and the atomic rename performed — so on every failure path a
pre-existing `video.mp4` is untouched. -/
theorem all_or_nothing_spec (flag : Bool) (env : JobEnv) (initial : OutContent) :
    ((generate_video flag env initial).successes ≠ env.subdirs.length →
      (∃ e, (generate_video flag env initial).result = .error e) ∧
      (generate_video flag env initial).output = initial) ∧
    ((generate_video flag env initial).output ≠ initial →
      (generate_video flag env initial).result = .ok "video.mp4" ∧
      (generate_video flag env initial).successes = env.subdirs.length) := by
  by_cases hempty : env.subdirs.isEmpty
  · have hgen : generate_video flag env initial =
        ⟨.error (.valueError noSegmentsMsg), initial, [], 0, 0⟩ := by
      simp [generate_video, hempty]
    rw [hgen]
    exact ⟨fun _ => ⟨⟨.valueError noSegmentsMsg, rfl⟩, rfl⟩, fun hout => absurd rfl hout⟩
  · rcases hrb : runBatches env (batches env.batchSize env.subdirs) 0 ⟨[], [], 0⟩
      with ⟨st, err⟩
    cases err with
    | some e =>
      have hgen : generate_video flag env initial =
          ⟨.error e, initial, st.allTemps, st.tempVideos.length, st.progress⟩ := by
        simp [generate_video, hempty, hrb]
      rw [hgen]
      exact ⟨fun _ => ⟨⟨e, rfl⟩, rfl⟩, fun hout => absurd rfl hout⟩
    | none =>
      by_cases hlen : st.tempVideos.length = env.subdirs.length
      · by_cases htv : st.tempVideos.isEmpty
        · have hgen : generate_video flag env initial =
              ⟨.error (.valueError noneGeneratedMsg), initial, st.allTemps,
                st.tempVideos.length, st.progress⟩ := by
            simp [generate_video, hempty, hrb, hlen, htv]
          rw [hgen]
          exact ⟨fun _ => ⟨⟨.valueError noneGeneratedMsg, rfl⟩, rfl⟩,
            fun hout => absurd rfl hout⟩
        · cases hmo : env.mergeOk
          · have hgen : generate_video flag env initial =
                ⟨.error (.calledProcessError "Merge failed"), initial, st.allTemps,
                  st.tempVideos.length, st.progress⟩ := by
              simp [generate_video, hempty, hrb, hlen, htv, merge_videos, hmo]
            rw [hgen]
            exact ⟨fun hne => absurd hlen hne, fun hout => absurd rfl hout⟩
          · have hgen : generate_video flag env initial =
                ⟨.ok "video.mp4", .merged st.tempVideos, st.allTemps,
                  st.tempVideos.length, env.subdirs.length⟩ := by
              simp [generate_video, hempty, hrb, hlen, htv, merge_videos, hmo]
            rw [hgen]
            exact ⟨fun hne => absurd hlen hne, fun _ => ⟨rfl, hlen⟩⟩
      · have hgen : generate_video flag env initial =
            ⟨.error (.valueError someFailedMsg), initial, st.allTemps,
              st.tempVideos.length, st.progress⟩ := by
          simp [generate_video, hempty, hrb, hlen]
        rw [hgen]
        exact ⟨fun _ => ⟨⟨.valueError someFailedMsg, rfl⟩, rfl⟩, fun hout => absurd rfl hout⟩

/-- Witness for claim C2: a job whose only segment fails to load renders 0 of
1 segments, raises, and leaves the pre-existing output content unchanged. -/
theorem all_or_nothing_witness :
    (generate_video true failEnv (.preexisting 5)).successes ≠ failEnv.subdirs.length ∧
    (∃ e, (generate_video true failEnv (.preexisting 5)).result = .error e) ∧
    (generate_video true failEnv (.preexisting 5)).output = .preexisting 5 := by
  have h := (all_or_nothing_spec true failEnv (.preexisting 5)).1 (by decide)
  exact ⟨by decide, h.1, h.2⟩

/-! ## Claim C3 -/

/-- Evaluation of the sample successful job: one segment of 40 frames is
rendered, encoded and merged, and the output replaced. -/
theorem happyEnv_run :
    generate_video true happyEnv (OutContent.preexisting 5) =
      ⟨.ok "video.mp4", .merged [(segmentTempFiles "1" 42 7).1],
        [(segmentTempFiles "1" 42 7).1, (segmentTempFiles "1" 42 7).2], 1, 1⟩ := by
  have h40 : pyInt ((2 : ℚ) * 20) = 40 := by norm_num [pyInt]
  have h0 : ¬ pyInt ((2 : ℚ) * 20) = 0 := by rw [h40]; decide
  have hfr : framesRendered (fun _ => false) (pyInt ((2 : ℚ) * 20)).toNat = 40 := by
    rw [h40]; decide
  have hseg : runSegment happyEnv "1" = ⟨.ok (segmentTempFiles "1" 42 7), 40, 1⟩ := by
    show process_segment 20 (.ok 2) (fun _ => false) true "1" 42 7 = _
    rw [process_segment_pos 20 2 (fun _ => false) true "1" 42 7 h0, hfr]
    rfl
  have hbsize : happyEnv.batchSize = 1 := rfl
  have hbs : happyEnv.batchStop 0 = false := rfl
  have hmo : happyEnv.mergeOk = true := rfl
  have hsubs : happyEnv.subdirs = ["1"] := rfl
  simp [generate_video, hsubs, hbsize, batches, batchesFuel, runBatches, hbs,
    collectBatch, hseg, merge_videos, hmo]

/-- Claim C3 counterexample: cancellation requested before the job starts —
`cancel_generation` sets the flag, and no batch has run yet — is erased by
the `stop_flag.clear()` at line 190: the job then runs to completion and
returns the merged video instead of aborting with the cancellation error. -/
theorem pre_start_cancellation_counterexample :
    (cancel_generation false).1 = true ∧
    (generate_video (cancel_generation false).1 happyEnv (.preexisting 5)).result =
      .ok "video.mp4" ∧
    (generate_video (cancel_generation false).1 happyEnv (.preexisting 5)).result ≠
      .error (.valueError cancelledMsg) ∧
    (generate_video (cancel_generation false).1 happyEnv (.preexisting 5)).tempsCreated ≠
      [] := by
  have hgen : generate_video (cancel_generation false).1 happyEnv (.preexisting 5) =
      ⟨.ok "video.mp4", .merged [(segmentTempFiles "1" 42 7).1],
        [(segmentTempFiles "1" 42 7).1, (segmentTempFiles "1" 42 7).2], 1, 1⟩ :=
    happyEnv_run
  rw [hgen]
  exact ⟨rfl, rfl, by simp, by simp⟩

/-- Claim C3 (amended): a cancellation requested before the job starts is
discarded by the flag clear at job start and does not abort the job (see the
counterexample); a cancellation observed at the first end-of-batch check
makes the job abort right after the first batch with the cancellation
`ValueError` — the same exception class as ordinary failures but a distinct
message — leaving the output untouched; when every segment of that batch
also observed the flag at its first frame check, zero temp files were
created and the progress counter stays 0. The flag is (re-)checked after
every batch. -/
theorem cancellation_abort_spec (env : JobEnv) (flag : Bool) (initial : OutContent)
    (_hsize : 1 ≤ env.batchSize) (hne : env.subdirs ≠ [])
    (hb0 : env.batchStop 0 = true) :
    (generate_video flag env initial).result = .error (.valueError cancelledMsg) ∧
    (generate_video flag env initial).output = initial ∧
    PyErr.valueError cancelledMsg ≠ PyErr.valueError someFailedMsg ∧
    PyErr.valueError cancelledMsg ≠ PyErr.valueError noSegmentsMsg ∧
    ((∀ s, env.segStop s 0 = true) →
      (generate_video flag env initial).tempsCreated = [] ∧
      (generate_video flag env initial).progress = 0) := by
  obtain ⟨x, xs, hxs⟩ : ∃ x xs, env.subdirs = x :: xs := by
    cases hsubs : env.subdirs with
    | nil => exact absurd hsubs hne
    | cons x xs => exact ⟨x, xs, rfl⟩
  have hrun : runBatches env (batches env.batchSize env.subdirs) 0 ⟨[], [], 0⟩ =
      (collectBatch ⟨[], [], 0⟩ (((x :: xs).take env.batchSize).map (runSegment env)),
        some (.valueError cancelledMsg)) := by
    rw [hxs, batches_cons]
    simp only [runBatches]
    rw [if_pos hb0]
  have hemp : env.subdirs.isEmpty = false := by rw [hxs]; rfl
  have hgen : generate_video flag env initial =
      ⟨.error (.valueError cancelledMsg), initial,
        (collectBatch ⟨[], [], 0⟩
          (((x :: xs).take env.batchSize).map (runSegment env))).allTemps,
        (collectBatch ⟨[], [], 0⟩
          (((x :: xs).take env.batchSize).map (runSegment env))).tempVideos.length,
        (collectBatch ⟨[], [], 0⟩
          (((x :: xs).take env.batchSize).map (runSegment env))).progress⟩ := by
    simp [generate_video, hemp, hrun]
  rw [hgen]
  refine ⟨rfl, rfl, by decide, by decide, ?_⟩
  intro hseg0
  have hst : collectBatch ⟨[], [], 0⟩
      (((x :: xs).take env.batchSize).map (runSegment env)) = ⟨[], [], 0⟩ := by
    apply collectBatch_all_error
    intro o ho
    rw [List.mem_map] at ho
    obtain ⟨s, _, rfl⟩ := ho
    exact runSegment_error_of_stop0 env s (hseg0 s)
  rw [hst]
  exact ⟨rfl, rfl⟩

/-- Witness for the amended claim C3: with the flag set from the start of the
job, the sample one-segment job aborts with the cancellation error and
creates no temp file. -/
theorem cancellation_abort_witness :
    (1 : ℕ) ≤ cancelEnv.batchSize ∧ cancelEnv.subdirs ≠ [] ∧
    (generate_video true cancelEnv (.preexisting 3)).result =
      .error (.valueError cancelledMsg) ∧
    (generate_video true cancelEnv (.preexisting 3)).output = .preexisting 3 ∧
    (generate_video true cancelEnv (.preexisting 3)).tempsCreated = [] := by
  have h := cancellation_abort_spec cancelEnv true (.preexisting 3) (by decide)
    (by decide) rfl
  exact ⟨by decide, by decide, h.1, h.2.1, (h.2.2.2.2 (fun _ => rfl)).1⟩

/-! ## Claim C1 -/

/-- Claim C1 counterexample: with the stop flag becoming set at the frame-20
boundary of a 40-frame segment, `_process_segment` stops rendering further
frames but does NOT discard the partial segment: it writes the 20 truncated
frames and returns the temp clip paths instead of raising. -/
theorem truncated_clip_counterexample :
    (process_segment 20 (.ok 2) (fun i => decide (20 ≤ i)) true "1" 42 7).result =
      .ok (segmentTempFiles "1" 42 7) ∧
    (process_segment 20 (.ok 2) (fun i => decide (20 ≤ i)) true "1" 42 7).frames = 20 ∧
    pyInt ((2 : ℚ) * 20) = 40 ∧
    (20 : ℕ) ≠ 40 := by
  have h40 : pyInt ((2 : ℚ) * 20) = 40 := by norm_num [pyInt]
  have h0 : ¬ pyInt ((2 : ℚ) * 20) = 0 := by rw [h40]; decide
  have hfr : framesRendered (fun i => decide (20 ≤ i)) (pyInt ((2 : ℚ) * 20)).toNat
      = 20 := by
    rw [h40]; decide
  rw [process_segment_pos 20 2 (fun i => decide (20 ≤ i)) true "1" 42 7 h0, hfr]
  exact ⟨rfl, rfl, h40, by decide⟩

/-- Claim C1 (amended): the stop flag is checked before every frame, and no
frame is rendered at or past the first set observation; but the partial
segment is not discarded — the truncated frame list is still encoded and
returned (see the counterexample). A truncated clip nevertheless never
reaches the merge: provided a segment that observed the flag mid-render
implies the following end-of-batch check reads the flag as set (monotone
flag), a job that returns successfully had every segment render its full
frame count. -/
theorem no_truncated_clip_in_merge_spec (env : JobEnv) (flag : Bool)
    (initial : OutContent) (path : String) (hsize : 1 ≤ env.batchSize)
    (hcons : ∀ bIdx s, s ∈ (batches env.batchSize env.subdirs).getD bIdx [] →
      (∃ i, i < segTotalFrames env s ∧ env.segStop s i = true) →
      env.batchStop bIdx = true) :
    (∀ (stop : ℕ → Bool) (total : ℕ),
      framesRendered stop total ≤ total ∧
      (∀ i < framesRendered stop total, stop i = false) ∧
      (∀ j, stop j = true → framesRendered stop total ≤ j)) ∧
    ((generate_video flag env initial).result = .ok path →
      ∀ s ∈ env.subdirs,
        framesRendered (env.segStop s) (segTotalFrames env s) = segTotalFrames env s) := by
  constructor
  · intro stop total
    exact ⟨framesRendered_le stop total, framesRendered_sound stop total,
      fun j hj => framesRendered_stop_le stop total j hj⟩
  · intro hok s hmem
    by_cases hempty : env.subdirs.isEmpty
    · rw [List.isEmpty_iff.mp hempty] at hmem
      exact absurd hmem (List.not_mem_nil s)
    · rcases hrb : runBatches env (batches env.batchSize env.subdirs) 0 ⟨[], [], 0⟩
        with ⟨st, err⟩
      cases err with
      | some e =>
        have hres : (generate_video flag env initial).result = .error e := by
          simp [generate_video, hempty, hrb]
        rw [hok] at hres
        exact absurd hres (by simp)
      | none =>
        have hstops := runBatches_none_batchStop env _ 0 _ _ hrb
        have hmem' : s ∈ (batches env.batchSize env.subdirs).flatten := by
          rw [batches_flatten env.batchSize hsize]
          exact hmem
        rw [List.mem_flatten] at hmem'
        obtain ⟨b, hb, hsb⟩ := hmem'
        obtain ⟨i, hge⟩ := List.mem_iff_get.mp hb
        have hgetD : (batches env.batchSize env.subdirs).getD i.val [] = b := by
          simp [List.getD_eq_getElem?_getD, List.getElem?_eq_getElem i.isLt]
          exact hge
        have hbsfalse : env.batchStop i.val = false := by
          have hz := hstops i.val i.isLt
          simpa using hz
        have hnoobs : ¬ ∃ j, j < segTotalFrames env s ∧ env.segStop s j = true := by
          intro hobs
          have hcontra := hcons i.val s (hgetD ▸ hsb) hobs
          rw [hbsfalse] at hcontra
          exact Bool.false_ne_true hcontra
        push_neg at hnoobs
        apply framesRendered_of_no_stop
        intro j hj
        simpa using hnoobs j hj

/-- Witness for the amended claim C1: the sample job with no cancellation
returns successfully and its single segment rendered all of its frames. -/
theorem no_truncated_clip_witness :
    (1 : ℕ) ≤ happyEnv.batchSize ∧
    framesRendered (fun _ => false) 40 ≤ 40 ∧
    framesRendered (happyEnv.segStop "1") (segTotalFrames happyEnv "1") =
      segTotalFrames happyEnv "1" := by
  have h := no_truncated_clip_in_merge_spec happyEnv true (.preexisting 5) "video.mp4"
    (by decide)
    (fun bIdx s _ hex => absurd hex.choose_spec.2 Bool.false_ne_true)
  have hok : (generate_video true happyEnv (.preexisting 5)).result = .ok "video.mp4" := by
    rw [happyEnv_run]
  exact ⟨by decide, (h.1 (fun _ => false) 40).1,
    h.2 hok "1" (List.mem_cons_self "1" [])⟩

end VisionTale
